import Mathlib

/-!
Verification of the United States Tax Court scraper
(`juriscraper/opinions/united_states/federal_special/tax.py`).

The Python source is shallowly embedded: strings are `String`/`List Char`,
dates are day numbers (`Nat`, days counted from 0000-03-01 with the standard
civil-calendar formula), Python's `re` engine is embedded as a small
backtracking matcher (`mat`/`searchRE`) over an explicit regex syntax `RE`
with capture groups, whose backtracking order (leftmost alternative first,
greedy repetition) and leftmost-search semantics mirror CPython's `re.search`.
Fallible operations return `Option`.  Character classes are modelled over
ASCII, which covers every literal appearing in the two citation grammars.
-/

/-! ## Python string primitives -/

/-- Python's `\s` / `str.strip` whitespace set (ASCII part). -/
def pySpace (c : Char) : Bool :=
  c = ' ' || c = '\t' || c = '\n' || c = '\r' || c = '\x0b' || c = '\x0c'

/-- Python `str.strip()`: drop leading and trailing whitespace. -/
def pyStrip (s : String) : String :=
  String.mk (((s.toList.dropWhile pySpace).reverse.dropWhile pySpace).reverse)

/-- Python `str.lower()` (ASCII). -/
def pyLower (s : String) : String :=
  String.mk (s.toList.map Char.toLower)

/-- Python's substring containment over char lists: `pat in l`. -/
def isSubList (pat : List Char) : List Char → Bool
  | [] => pat.isEmpty
  | c :: t => pat.isPrefixOf (c :: t) || isSubList pat t

/-- Python's `pat in s` on strings. -/
def pyIn (pat s : String) : Bool :=
  isSubList pat.toList s.toList

/-- One scan step of Python `str.replace(pat, rep)` (all occurrences,
left to right, non-overlapping).  `fuel` only bounds the recursion; every
step consumes at least one character, so `fuel = l.length` is exact. -/
def replaceCore (pat rep : List Char) : Nat → List Char → List Char
  | _, [] => []
  | 0, l => l
  | f + 1, c :: t =>
    if pat.isPrefixOf (c :: t) then
      rep ++ replaceCore pat rep f (List.drop pat.length (c :: t))
    else
      c :: replaceCore pat rep f t

/-- Python `l.replace(pat, rep)` on char lists. -/
def pyReplace (l pat rep : List Char) : List Char :=
  replaceCore pat rep l.length l

/-! ## Regex engine (model of CPython `re`)

Only the constructs used by the two citation grammars are embedded:
character classes, sequencing, alternation, numbered capture groups,
greedy bounded/unbounded repetition and the word boundary `\b`. -/

inductive RE where
  | eps : RE
  | cls (p : Char → Bool) : RE
  | seq (a b : RE) : RE
  | alt (a b : RE) : RE
  | grp (n : Nat) (a : RE) : RE
  | rep (a : RE) (lo : Nat) (hi : Option Nat) : RE
  | wb : RE

/-- Captured groups: `(group number, start, stop)`, most recent first. -/
abbrev Caps := List (Nat × Nat × Nat)

/-- A word character for `\b` (Python ASCII `\w`). -/
def wordChar (c : Char) : Bool := c.isAlpha || c.isDigit || c = '_'

/-- Whether the character at index `j` of `s` is a word character. -/
def wordAt (s : List Char) (j : Nat) : Bool :=
  match s.get? j with
  | some c => wordChar c
  | none => false

/-- Backtracking matcher in continuation-passing style.  `i` is the current
index into the subject `s`, `g` the capture environment, and `k` the
continuation.  Successes are explored in CPython's preference order:
left alternative first, greedy repetition longest-first.  `fuel` bounds the
recursion depth and is chosen large enough by `searchRE` below. -/
def mat (s : List Char) : Nat → RE → Nat → Caps →
    (Nat → Caps → Option (Nat × Caps)) → Option (Nat × Caps)
  | 0, _, _, _, _ => none
  | f + 1, r, i, g, k =>
    match r with
    | .eps => k i g
    | .cls p =>
      match s.get? i with
      | some c => if p c then k (i + 1) g else none
      | none => none
    | .seq a b => mat s f a i g (fun j g2 => mat s f b j g2 k)
    | .alt a b =>
      match mat s f a i g k with
      | some res => some res
      | none => mat s f b i g k
    | .grp n a => mat s f a i g (fun j g2 => k j ((n, i, j) :: g2))
    | .rep a lo hi =>
      match lo with
      | l + 1 =>
        mat s f a i g (fun j g2 => mat s f (.rep a l (hi.map Nat.pred)) j g2 k)
      | 0 =>
        match hi with
        | some 0 => k i g
        | _ =>
          match mat s f a i g (fun j g2 =>
              if j = i then none
              else mat s f (.rep a 0 (hi.map Nat.pred)) j g2 k) with
          | some res => some res
          | none => k i g
    | .wb =>
      let prevW := if i = 0 then false else wordAt s (i - 1)
      if prevW != wordAt s i then k i g else none

/-- The result of a successful `re.search`: subject, match span, captures. -/
structure MatchRes where
  src : List Char
  mstart : Nat
  mstop : Nat
  caps : Caps
deriving DecidableEq, Repr

/-- `match.group(n)`: `none` when group `n` did not participate. -/
def MatchRes.grp (m : MatchRes) (n : Nat) : Option String :=
  match m.caps.find? (fun t => t.1 = n) with
  | some (_, a, b) => some (String.mk ((m.src.drop a).take (b - a)))
  | none => none

/-- `match.group()`: the whole matched text. -/
def MatchRes.matched (m : MatchRes) : String :=
  String.mk ((m.src.drop m.mstart).take (m.mstop - m.mstart))

/-- Recursion-depth budget for `mat`; generous for the fixed grammars used. -/
def fuelFor (s : List Char) : Nat := 50 * s.length + 500

/-- `re.search(r, str)`: try each start position left to right and return
the first (leftmost) match, with CPython's preferred parse at that start. -/
def searchRE (r : RE) (str : String) : Option MatchRes :=
  let s := str.toList
  (List.range (s.length + 1)).findSome? (fun i =>
    (mat s (fuelFor s) r i [] (fun j g => some (j, g))).map
      (fun p => { src := s, mstart := i, mstop := p.1, caps := p.2 }))

/-! ## The two citation grammars of `Site.extract_from_text` -/

/-- Sequence a list of regexes. -/
def cat (l : List RE) : RE := l.foldr .seq .eps

/-- A literal character, exactly. -/
def litc (c : Char) : RE := .cls (fun x => x = c)

/-- A literal character under `re.IGNORECASE`. -/
def lici (c : Char) : RE := .cls (fun x => x.toLower = c.toLower)

/-- A literal string under `re.IGNORECASE` (spaces match exactly). -/
def liciStr (t : String) : RE := cat (t.toList.map lici)

/-- `[0-9]` / `\d`. -/
def reDigit : RE := .cls Char.isDigit

/-- `\s`. -/
def reWs : RE := .cls pySpace

/-- `tax_court_reports_regex`:
`([0-9]{1,4})\s{1,}UNITED\ STATES\ TAX\ COURT\ REPORTS?\s{1,}\((\d{1,4})\)`
with `re.VERBOSE | re.IGNORECASE`. -/
def tax_court_reports_regex : RE :=
  cat [ .grp 1 (.rep reDigit 1 (some 4)),
        .rep reWs 1 none,
        liciStr "United States Tax Court Report",
        .rep (lici 's') 0 (some 1),
        .rep reWs 1 none,
        litc '(',
        .grp 2 (.rep reDigit 1 (some 4)),
        litc ')' ]

/-- `tax_court_alt_regex`:
`((T\.\ ?C\.\s((Memo\.?)|(Summary\ Opinion))\s{1,}([0-9]{4}).([0-9]{1,3})\b)|([0-9]{1,4})\s{1,}(T\.\ ?C\.\ No\.)\s{1,}(\d{1,4}))`
with `re.VERBOSE | re.IGNORECASE`; `.` is any character but newline. -/
def tax_court_alt_regex : RE :=
  .grp 1 (.alt
    (.grp 2 (cat
      [ lici 'T', litc '.', .rep (litc ' ') 0 (some 1), lici 'C', litc '.', reWs,
        .grp 3 (.alt
          (.grp 4 (cat [liciStr "Memo", .rep (litc '.') 0 (some 1)]))
          (.grp 5 (liciStr "Summary Opinion"))),
        .rep reWs 1 none,
        .grp 6 (.rep reDigit 4 (some 4)),
        .cls (fun c => c ≠ '\n'),
        .grp 7 (.rep reDigit 1 (some 3)),
        .wb ]))
    (cat
      [ .grp 8 (.rep reDigit 1 (some 4)),
        .rep reWs 1 none,
        .grp 9 (cat [ lici 'T', litc '.', .rep (litc ' ') 0 (some 1),
                      lici 'C', litc '.', litc ' ', lici 'N', lici 'o', litc '.' ]),
        .rep reWs 1 none,
        .grp 10 (.rep reDigit 1 (some 4)) ]))

/-! ## `Site.extract_from_text` -/

/-- The output record: `Citation` fields (`type` is always the constant
`citation_types["SPECIALTY"]`, kept here as the tag string) and
`OpinionCluster.precedential_status`. -/
structure ExtractedMeta where
  ctype : String
  volume : Option String
  page : Option String
  reporter : Option String
  precedential_status : String
deriving DecidableEq, Repr

/-- The initial metadata: no citation fields, empty status. -/
def emptyMeta : ExtractedMeta :=
  { ctype := "SPECIALTY", volume := none, page := none, reporter := none,
    precedential_status := "" }

/-- `Site.extract_from_text` from the source, line by line. -/
def extract_from_text (scraped_text : String) : ExtractedMeta :=
  match searchRE tax_court_reports_regex scraped_text with
  | some m =>
    { ctype := "SPECIALTY", volume := m.grp 1, page := m.grp 2,
      reporter := some "T.C.", precedential_status := "Published" }
  | none =>
    match searchRE tax_court_alt_regex scraped_text with
    | some m =>
      if pyIn "No." m.matched then
        { ctype := "SPECIALTY", reporter := some "T.C.",
          volume := m.grp 8, page := m.grp 10,
          precedential_status := "Published" }
      else
        { ctype := "SPECIALTY",
          reporter :=
            if pyIn "Memo" m.matched then some "T.C. Memo."
            else if pyIn "Summary" m.matched then some "T.C. Summary Opinion"
            else none,
          volume := m.grp 6, page := m.grp 7,
          precedential_status := "Unpublished" }
    | none => emptyMeta

/-! ## `Site._get_precedential_statuses` -/

/-- The classification applied to one row's second-column text:
strip, lower, then ordered substring tests. -/
def classifyStatus (raw : String) : String :=
  let status := pyLower (pyStrip raw)
  if pyIn "opinion" status then "Published"
  else if pyIn "memorandum" status then "Unpublished"
  else if pyIn "summary" status then "Unpublished"
  else "Unknown"

/-! ## The result table and the row getters

A rendered document is the list of rows selected by
`//tr[@class="ResultsOddRow" or @class="ResultsEvenRow"]`; each row carries
its `td` cell texts in order and the hrefs of its anchors.  `//td[k]`
relative to a row yields the row's `k`-th cell when present, and `//@href`
yields all its anchor hrefs. -/

structure Row where
  cells : List String
  hrefs : List String
deriving DecidableEq, Repr

/-- `row//td[k]` as a list of selected cells (empty or a singleton). -/
def cellAt (k : Nat) (r : Row) : List String :=
  (r.cells.drop (k - 1)).take 1

/-- Concatenate a per-row selection over the whole document
(the flattening an XPath query over all rows performs). -/
def collect (f : Row → List α) : List Row → List α
  | [] => []
  | r :: t => f r ++ collect f t

/-- The body of the href loop in `_get_download_urls`. -/
def rewriteHref (href : String) : String :=
  if pyIn "?ID" href then href
  else String.mk (pyReplace href.toList
    "OpinionSearch.aspx#".toList "OpinionViewer.aspx?ID=".toList)

/-- `Site._get_download_urls`. -/
def get_download_urls (doc : List Row) : List String :=
  (collect Row.hrefs doc).map rewriteHref

/-- `Site._get_case_names`. -/
def get_case_names (doc : List Row) : List String :=
  (collect (cellAt 1) doc).map (fun t => pyStrip t ++ " v. Commissioner")

/-- `Site._get_precedential_statuses`. -/
def get_precedential_statuses (doc : List Row) : List String :=
  (collect (cellAt 2) doc).map classifyStatus

/-! ## `Site._get_case_dates` -/

/-- Gregorian leap year. -/
def isLeap (y : Nat) : Bool := (y % 4 = 0 && y % 100 ≠ 0) || y % 400 = 0

/-- Days in a month. -/
def daysInMonth (y m : Nat) : Nat :=
  if m = 2 then (if isLeap y then 29 else 28)
  else if m = 4 || m = 6 || m = 9 || m = 11 then 30
  else 31

/-- Digit-string to number. -/
def digitsToNat (l : List Char) : Nat :=
  l.foldl (fun a c => 10 * a + (c.toNat - '0'.toNat)) 0

/-- `datetime.strptime(s, "%m/%d/%Y").date()`: month and day of one or two
digits, a four-digit year, separated by `/`, the whole string consumed, and
the result a valid calendar date with `MINYEAR = 1 ≤ year` (four digits
already bound it below `MAXYEAR = 9999`); `none` models the `ValueError`. -/
def strptimeMDY (s : String) : Option (Nat × Nat × Nat) :=
  match s.toList.splitOn '/' with
  | [ms, ds, ys] =>
    if ms.all Char.isDigit && ds.all Char.isDigit && ys.all Char.isDigit &&
       decide (1 ≤ ms.length) && decide (ms.length ≤ 2) &&
       decide (1 ≤ ds.length) && decide (ds.length ≤ 2) &&
       decide (ys.length = 4) then
      let m := digitsToNat ms
      let d := digitsToNat ds
      let y := digitsToNat ys
      if 1 ≤ y && 1 ≤ m && m ≤ 12 && 1 ≤ d && d ≤ daysInMonth y m then
        some (m, d, y)
      else none
    else none
  | _ => none

/-- The date loop of `_get_case_dates`: strip each third-column text and
parse it; a single failure aborts the page (the raised `ValueError`). -/
def datesParse : List String → Option (List (Nat × Nat × Nat))
  | [] => some []
  | t :: rest =>
    match strptimeMDY (pyStrip t), datesParse rest with
    | some d, some ds => some (d :: ds)
    | _, _ => none

/-- `Site._get_case_dates`; `none` models the raised `ValueError`. -/
def get_case_dates (doc : List Row) : Option (List (Nat × Nat × Nat)) :=
  datesParse (collect (cellAt 3) doc)

/-! ## `Site.__init__`: the backscrape date window

Dates are day numbers: days elapsed since 0000-03-01 by the standard
civil-calendar conversion, so that subtraction counts calendar days. -/

/-- Civil date to day number (days since 0000-03-01). -/
def toDays (y m d : Nat) : Nat :=
  let y' := if m ≤ 2 then y - 1 else y
  let era := y' / 400
  let yoe := y' % 400
  let mp := (m + 9) % 12
  let doy := (153 * mp + 2) / 5 + d - 1
  let doe := yoe * 365 + yoe / 4 - yoe / 100 + doy
  era * 146097 + doe

/-- `rrule(WEEKLY, dtstart, until)`: the anchor, then 7-day steps while the
`until` bound is not passed.  `fuel` only bounds the iteration count; the
loop is cut by the `until` comparison, and the theorems about the concrete
window certify that the budget was not the binding cut. -/
def weeklyFrom : Nat → Nat → Nat → List Nat
  | 0, _, _ => []
  | fuel + 1, d, u => if d ≤ u then d :: weeklyFrom fuel (d + 7) u else []

/-- `date(1995, 9, 25)` as a day number. -/
def startDay : Nat := toDays 1995 9 25

/-- `date(2018, 11, 13)` as a day number. -/
def untilDay : Nat := toDays 2018 11 13

/-- `self.back_scrape_iterable` from `Site.__init__`. -/
def back_scrape_iterable : List Nat := weeklyFrom 3000 startDay untilDay

/-! ## `Site._download_backwards` and the framework's parse entry point -/

/-- The mutable `Site` state touched by the backscraper: lookback length,
anchor date (a day number), the fetched document and the completion status. -/
structure TaxSiteState where
  backwards_days : Nat
  case_date : Nat
  html : Option (List Row)
  status : Option Nat
deriving DecidableEq, Repr

/-- `Site._download_backwards(d)`: set the 7-day lookback and the anchor
date, fetch the range `[d - 7, d]` through `_download` (abstracted as the
external `fetch` collaborator), and on a non-`None` document record
`status = 200`. -/
def download_backwards (fetch : Nat → Nat → Option (List Row))
    (st : TaxSiteState) (d : Nat) : TaxSiteState :=
  let st1 := { st with backwards_days := 7, case_date := d }
  let h := fetch (st1.case_date - st1.backwards_days) st1.case_date
  let st2 := { st1 with html := h }
  match h with
  | some _ => { st2 with status := some 200 }
  | none => st2

/-- Modelled from the spec: the framework's fetch entry point
(`AbstractSite.parse`, not under `src/`), which "may call the fetch entry
point twice; completion state makes the second call a no-op" — it runs the
download step only when no completion status has been recorded.  Returns
the updated state and whether a fetch was performed. -/
def parseStep (fetch : Nat → Nat → Option (List Row))
    (st : TaxSiteState) : TaxSiteState × Bool :=
  match st.status with
  | some _ => (st, false)
  | none =>
    let h := fetch (st.case_date - st.backwards_days) st.case_date
    ({ st with html := h, status := some 200 }, true)

/-! ## Claims about `extract_from_text` -/

/-- Claim C1: whenever the primary "United States Tax Court Report(s)"
grammar matches, `extract_from_text` returns reporter `"T.C."`, the volume
and page verbatim from the first match, and status `"Published"`, and the
result is determined solely by the primary match — e.g. on
`"138 United States Tax Court Report (1)"` it yields volume `"138"` and
page `"1"`, and on a text that the alternate grammar also matches the
primary fields still win. -/
theorem claim_C1 :
    (∀ (s : String) (m : MatchRes),
      searchRE tax_court_reports_regex s = some m →
      extract_from_text s =
        { ctype := "SPECIALTY", volume := m.grp 1, page := m.grp 2,
          reporter := some "T.C.", precedential_status := "Published" }) ∧
    extract_from_text "138 United States Tax Court Report (1)" =
      { ctype := "SPECIALTY", volume := some "138", page := some "1",
        reporter := some "T.C.", precedential_status := "Published" } ∧
    (searchRE tax_court_alt_regex
      "138 United States Tax Court Reports (1) T.C. Memo 2012-1").isSome = true ∧
    extract_from_text "138 United States Tax Court Reports (1) T.C. Memo 2012-1" =
      { ctype := "SPECIALTY", volume := some "138", page := some "1",
        reporter := some "T.C.", precedential_status := "Published" } := by
  refine ⟨?_, by decide, by decide, by decide⟩
  intro s m h
  simp [extract_from_text, h]

/-- Claim C1, witness: the universal part applied to the concrete primary
match of `"138 United States Tax Court Report (1)"`. -/
theorem claim_C1_witness :
    extract_from_text "138 United States Tax Court Report (1)" =
      { ctype := "SPECIALTY",
        volume := MatchRes.grp
          ⟨"138 United States Tax Court Report (1)".toList, 0, 38,
            [(2, 36, 37), (1, 0, 3)]⟩ 1,
        page := MatchRes.grp
          ⟨"138 United States Tax Court Report (1)".toList, 0, 38,
            [(2, 36, 37), (1, 0, 3)]⟩ 2,
        reporter := some "T.C.", precedential_status := "Published" } :=
  claim_C1.1 "138 United States Tax Court Report (1)"
    ⟨"138 United States Tax Court Report (1)".toList, 0, 38,
      [(2, 36, 37), (1, 0, 3)]⟩ (by decide)

/-- Claim C2: when the primary grammar fails and the alternate grammar
matches, the numbered-opinion fields (groups 8 and 10, reporter `"T.C."`,
`"Published"`) are read when the matched text contains `"No."`, else the
Memorandum/Summary fields (groups 6 and 7, reporter chosen by testing
`"Memo"` then `"Summary"`, `"Unpublished"`); concretely,
`"T.C. Memo 2012-1"` yields `{T.C. Memo., 2012, 1, Unpublished}` and
`"45 T.C. No. 3"` yields `{T.C., 45, 3, Published}`. -/
theorem claim_C2 :
    (∀ (s : String) (m : MatchRes),
      searchRE tax_court_reports_regex s = none →
      searchRE tax_court_alt_regex s = some m →
      (pyIn "No." m.matched = true →
        extract_from_text s =
          { ctype := "SPECIALTY", volume := m.grp 8, page := m.grp 10,
            reporter := some "T.C.", precedential_status := "Published" }) ∧
      (pyIn "No." m.matched = false →
        extract_from_text s =
          { ctype := "SPECIALTY", volume := m.grp 6, page := m.grp 7,
            reporter :=
              if pyIn "Memo" m.matched then some "T.C. Memo."
              else if pyIn "Summary" m.matched then some "T.C. Summary Opinion"
              else none,
            precedential_status := "Unpublished" })) ∧
    extract_from_text "T.C. Memo 2012-1" =
      { ctype := "SPECIALTY", volume := some "2012", page := some "1",
        reporter := some "T.C. Memo.", precedential_status := "Unpublished" } ∧
    extract_from_text "T.C. Summary Opinion 2012-5" =
      { ctype := "SPECIALTY", volume := some "2012", page := some "5",
        reporter := some "T.C. Summary Opinion",
        precedential_status := "Unpublished" } ∧
    extract_from_text "45 T.C. No. 3" =
      { ctype := "SPECIALTY", volume := some "45", page := some "3",
        reporter := some "T.C.", precedential_status := "Published" } := by
  refine ⟨?_, by decide, by decide, by decide⟩
  intro s m h1 h2
  constructor
  · intro hno
    simp [extract_from_text, h1, h2, hno]
  · intro hno
    simp [extract_from_text, h1, h2, hno]

/-- Claim C2, witness: the universal part applied to the concrete alternate
match of `"45 T.C. No. 3"`, whose matched text contains `"No."`. -/
theorem claim_C2_witness :
    extract_from_text "45 T.C. No. 3" =
      { ctype := "SPECIALTY",
        volume := MatchRes.grp
          ⟨"45 T.C. No. 3".toList, 0, 13,
            [(1, 0, 13), (10, 12, 13), (9, 3, 11), (8, 0, 2)]⟩ 8,
        page := MatchRes.grp
          ⟨"45 T.C. No. 3".toList, 0, 13,
            [(1, 0, 13), (10, 12, 13), (9, 3, 11), (8, 0, 2)]⟩ 10,
        reporter := some "T.C.", precedential_status := "Published" } :=
  (claim_C2.1 "45 T.C. No. 3"
    ⟨"45 T.C. No. 3".toList, 0, 13,
      [(1, 0, 13), (10, 12, 13), (9, 3, 11), (8, 0, 2)]⟩
    (by decide) (by decide)).1 (by decide)

/-! ## Case-variant invariance of the matcher

To settle the case-tolerance half of the whitespace/case claim universally,
the engine is proved insensitive to case changes of the subject: two
subjects that agree up to letter case drive `mat` identically whenever every
character class of the regex is case-closed, which both citation grammars
are. -/

/-- One character is a case variant of another: equal, or both letters
with the same lowercase form. -/
def caseVar (c c' : Char) : Prop :=
  c' = c ∨ (c.isAlpha = true ∧ c'.isAlpha = true ∧ c.toLower = c'.toLower)

/-- Executable form of `caseVar`. -/
def caseVarB (c c' : Char) : Bool :=
  c' == c || (c.isAlpha && c'.isAlpha && c.toLower == c'.toLower)

/-- Two subjects are case variants: same length, characters pairwise
case variants. -/
def caseVariant : List Char → List Char → Bool
  | [], [] => true
  | c :: t, c' :: t' => caseVarB c c' && caseVariant t t'
  | _, _ => false

/-- Lifting of `caseVar` to optional characters. -/
def optCaseVar : Option Char → Option Char → Prop
  | none, none => True
  | some c, some c' => caseVar c c'
  | _, _ => False

/-- The executable check certifies `caseVar`. -/
theorem caseVarB_caseVar {c c' : Char} (h : caseVarB c c' = true) : caseVar c c' := by
  simp only [caseVarB, Bool.or_eq_true, Bool.and_eq_true, beq_iff_eq] at h
  rcases h with h | ⟨⟨h1, h2⟩, h3⟩
  · exact Or.inl h
  · exact Or.inr ⟨h1, h2, h3⟩

/-- Case variants have equal length. -/
theorem caseVariant_length : ∀ s s', caseVariant s s' = true → s.length = s'.length := by
  intro s
  induction s with
  | nil => intro s' h; cases s' with
    | nil => rfl
    | cons c t => simp [caseVariant] at h
  | cons c t ih =>
    intro s' h
    cases s' with
    | nil => simp [caseVariant] at h
    | cons c' t' =>
      simp only [caseVariant, Bool.and_eq_true] at h
      simp [ih t' h.2]

/-- Case variants agree pointwise up to `caseVar`. -/
theorem caseVariant_get? : ∀ s s', caseVariant s s' = true →
    ∀ i, optCaseVar (s.get? i) (s'.get? i) := by
  intro s
  induction s with
  | nil => intro s' h i; cases s' with
    | nil => cases i <;> exact trivial
    | cons c t => simp [caseVariant] at h
  | cons c t ih =>
    intro s' h i
    cases s' with
    | nil => simp [caseVariant] at h
    | cons c' t' =>
      simp only [caseVariant, Bool.and_eq_true] at h
      cases i with
      | zero => exact caseVarB_caseVar h.1
      | succ n => exact ih t' h.2 n

/-- A letter is not a digit. -/
theorem isAlpha_not_isDigit (c : Char) (h : c.isAlpha = true) : c.isDigit = false := by
  simp only [Char.isAlpha, Char.isUpper, Char.isLower, Bool.or_eq_true,
    Bool.and_eq_true, decide_eq_true_eq, ge_iff_le, UInt32.le_def,
    BitVec.le_def, show (UInt32.toBitVec 65).toNat = 65 from rfl,
    show (UInt32.toBitVec 90).toNat = 90 from rfl,
    show (UInt32.toBitVec 97).toNat = 97 from rfl,
    show (UInt32.toBitVec 122).toNat = 122 from rfl] at h
  have hne : ¬ (c.val ≤ 57) := by
    rw [UInt32.le_def, BitVec.le_def,
      show (UInt32.toBitVec 57).toNat = 57 from rfl]
    rcases h with ⟨h3, _⟩ | ⟨h3, _⟩ <;> omega
  simp [Char.isDigit, hne]

/-- Case variants lowercase identically. -/
theorem caseVar_toLower {c c' : Char} (h : caseVar c c') : c.toLower = c'.toLower := by
  rcases h with rfl | ⟨_, _, h3⟩
  · rfl
  · exact h3

/-- Digit-ness is invariant under case variation. -/
theorem caseVar_isDigit {c c' : Char} (h : caseVar c c') : c.isDigit = c'.isDigit := by
  rcases h with rfl | ⟨h1, h2, _⟩
  · rfl
  · rw [isAlpha_not_isDigit c h1, isAlpha_not_isDigit c' h2]

/-- A letter is not whitespace. -/
theorem isAlpha_not_pySpace (c : Char) (h : c.isAlpha = true) : pySpace c = false := by
  cases hp : pySpace c with
  | false => rfl
  | true =>
    simp only [pySpace, Bool.or_eq_true, decide_eq_true_eq] at hp
    rcases hp with ((((rfl | rfl) | rfl) | rfl) | rfl) | rfl <;>
      exact absurd h (by decide)

/-- Whitespace-ness is invariant under case variation. -/
theorem caseVar_pySpace {c c' : Char} (h : caseVar c c') : pySpace c = pySpace c' := by
  rcases h with rfl | ⟨h1, h2, _⟩
  · rfl
  · rw [isAlpha_not_pySpace c h1, isAlpha_not_pySpace c' h2]

/-- Word-character-ness is invariant under case variation. -/
theorem caseVar_wordChar {c c' : Char} (h : caseVar c c') : wordChar c = wordChar c' := by
  rcases h with rfl | ⟨h1, h2, _⟩
  · rfl
  · simp [wordChar, h1, h2]

/-- Every character class of the regex is closed under case variation. -/
def REcase : RE → Prop
  | .cls p => ∀ c c', caseVar c c' → p c = p c'
  | .seq a b => REcase a ∧ REcase b
  | .alt a b => REcase a ∧ REcase b
  | .grp _ a => REcase a
  | .rep a _ _ => REcase a
  | _ => True

/-- Case-insensitive literals are case-closed. -/
theorem REcase_lici (c0 : Char) : REcase (lici c0) := by
  intro c c' h
  simp only [lici]
  rw [caseVar_toLower h]

/-- A non-letter exact literal is case-closed. -/
theorem REcase_litc (c0 : Char) (h0 : c0.isAlpha = false) : REcase (litc c0) := by
  intro c c' h
  rcases h with rfl | ⟨h1, h2, _⟩
  · rfl
  · simp only [litc]
    rw [decide_eq_decide]
    constructor
    · intro heq; rw [heq] at h1; exact absurd h1 (by simp [h0])
    · intro heq; rw [heq] at h2; exact absurd h2 (by simp [h0])

/-- The digit class is case-closed. -/
theorem REcase_reDigit : REcase reDigit := fun _ _ h => caseVar_isDigit h

/-- The whitespace class is case-closed. -/
theorem REcase_reWs : REcase reWs := fun _ _ h => caseVar_pySpace h

/-- The any-but-newline class is case-closed. -/
theorem REcase_dot : REcase (.cls (fun c => c ≠ '\n')) := by
  intro c c' h
  rcases h with rfl | ⟨h1, h2, _⟩
  · rfl
  · rw [decide_eq_decide]
    refine iff_of_true (fun heq => ?_) (fun heq => ?_)
    · rw [heq] at h1; exact absurd h1 (by decide)
    · rw [heq] at h2; exact absurd h2 (by decide)

/-- A sequence of case-closed regexes is case-closed. -/
theorem REcase_cat : ∀ l : List RE, (∀ x ∈ l, REcase x) → REcase (cat l) := by
  intro l
  induction l with
  | nil => intro _; exact trivial
  | cons a t ih =>
    intro h
    exact ⟨h a (List.mem_cons_self a t),
           ih (fun x hx => h x (List.mem_cons_of_mem a hx))⟩

/-- Case-insensitive literal strings are case-closed. -/
theorem REcase_liciStr (t : String) : REcase (liciStr t) := by
  refine REcase_cat _ (fun x hx => ?_)
  obtain ⟨c, _, rfl⟩ := List.mem_map.mp hx
  exact REcase_lici c

/-- The primary citation grammar is case-closed. -/
theorem REcase_primary : REcase tax_court_reports_regex := by
  refine REcase_cat _ (fun x hx => ?_)
  simp only [List.mem_cons, List.not_mem_nil, or_false] at hx
  rcases hx with rfl | rfl | rfl | rfl | rfl | rfl | rfl | rfl
  · exact REcase_reDigit
  · exact REcase_reWs
  · exact REcase_liciStr _
  · exact REcase_lici _
  · exact REcase_reWs
  · exact REcase_litc '(' (by decide)
  · exact REcase_reDigit
  · exact REcase_litc ')' (by decide)

/-- The alternate citation grammar is case-closed. -/
theorem REcase_alt : REcase tax_court_alt_regex := by
  refine ⟨?_, ?_⟩
  · refine REcase_cat _ (fun x hx => ?_)
    simp only [List.mem_cons, List.not_mem_nil, or_false] at hx
    rcases hx with rfl | rfl | rfl | rfl | rfl | rfl | rfl | rfl | rfl | rfl | rfl | rfl
    · exact REcase_lici _
    · exact REcase_litc '.' (by decide)
    · exact REcase_litc ' ' (by decide)
    · exact REcase_lici _
    · exact REcase_litc '.' (by decide)
    · exact REcase_reWs
    · exact ⟨REcase_cat _ (fun y hy => by
        simp only [List.mem_cons, List.not_mem_nil, or_false] at hy
        rcases hy with rfl | rfl
        · exact REcase_liciStr _
        · exact REcase_litc '.' (by decide)),
        REcase_liciStr _⟩
    · exact REcase_reWs
    · exact REcase_reDigit
    · exact REcase_dot
    · exact REcase_reDigit
    · exact trivial
  · refine REcase_cat _ (fun x hx => ?_)
    simp only [List.mem_cons, List.not_mem_nil, or_false] at hx
    rcases hx with rfl | rfl | rfl | rfl | rfl
    · exact REcase_reDigit
    · exact REcase_reWs
    · exact REcase_cat _ (fun y hy => by
        simp only [List.mem_cons, List.not_mem_nil, or_false] at hy
        rcases hy with rfl | rfl | rfl | rfl | rfl | rfl | rfl | rfl | rfl
        · exact REcase_lici _
        · exact REcase_litc '.' (by decide)
        · exact REcase_litc ' ' (by decide)
        · exact REcase_lici _
        · exact REcase_litc '.' (by decide)
        · exact REcase_litc ' ' (by decide)
        · exact REcase_lici _
        · exact REcase_lici _
        · exact REcase_litc '.' (by decide))
    · exact REcase_reWs
    · exact REcase_reDigit

/-- Word-boundary tests agree on case-variant subjects. -/
theorem wordAt_caseVar (s s' : List Char)
    (hrel : ∀ i, optCaseVar (s.get? i) (s'.get? i)) (j : Nat) :
    wordAt s j = wordAt s' j := by
  have h := hrel j
  unfold wordAt
  cases hs : s.get? j with
  | none => cases hs' : s'.get? j with
    | none => rfl
    | some c' => rw [hs, hs'] at h; exact absurd h (by simp [optCaseVar])
  | some c => cases hs' : s'.get? j with
    | none => rw [hs, hs'] at h; exact absurd h (by simp [optCaseVar])
    | some c' =>
      rw [hs, hs'] at h
      exact caseVar_wordChar h

/-- The matcher is insensitive to case variation of the subject when every
character class of the regex is case-closed: it succeeds or fails
identically, at the same positions, with the same captures. -/
theorem mat_caseVar : ∀ (fuel : Nat) (s s' : List Char),
    (∀ i, optCaseVar (s.get? i) (s'.get? i)) →
    ∀ (r : RE), REcase r → ∀ (i : Nat) (g : Caps)
      (k k' : Nat → Caps → Option (Nat × Caps)),
    (∀ j g2, k j g2 = k' j g2) →
    mat s fuel r i g k = mat s' fuel r i g k' := by
  intro fuel
  induction fuel with
  | zero => intro s s' _ r _ i g k k' _; rfl
  | succ f ih =>
    intro s s' hrel r hr i g k k' hk
    cases r with
    | eps => exact hk i g
    | cls p =>
      simp only [mat]
      have h := hrel i
      cases hs : s.get? i with
      | none =>
        cases hs' : s'.get? i with
        | none => rfl
        | some c' => rw [hs, hs'] at h; exact absurd h (by simp [optCaseVar])
      | some c =>
        cases hs' : s'.get? i with
        | none => rw [hs, hs'] at h; exact absurd h (by simp [optCaseVar])
        | some c' =>
          rw [hs, hs'] at h
          change (if p c = true then k (i + 1) g else none) =
            (if p c' = true then k' (i + 1) g else none)
          rw [hr c c' h]
          cases hpc : p c' with
          | false => rfl
          | true => simp only [if_pos rfl]; exact hk (i + 1) g
    | seq a b =>
      simp only [mat]
      exact ih s s' hrel a hr.1 i g _ _
        (fun j g2 => ih s s' hrel b hr.2 j g2 k k' hk)
    | alt a b =>
      simp only [mat]
      rw [ih s s' hrel a hr.1 i g k k' hk, ih s s' hrel b hr.2 i g k k' hk]
    | grp n a =>
      simp only [mat]
      exact ih s s' hrel a hr i g _ _ (fun j g2 => hk j ((n, i, j) :: g2))
    | rep a lo hi =>
      simp only [mat]
      cases lo with
      | succ l =>
        exact ih s s' hrel a hr i g _ _
          (fun j g2 => ih s s' hrel (.rep a l (hi.map Nat.pred)) hr j g2 k k' hk)
      | zero =>
        cases hi with
        | none =>
          rw [ih s s' hrel a hr i g
            (fun j g2 => if j = i then none
              else mat s f (.rep a 0 (Option.map Nat.pred none)) j g2 k)
            (fun j g2 => if j = i then none
              else mat s' f (.rep a 0 (Option.map Nat.pred none)) j g2 k')
            (fun j g2 => by
              by_cases hj : j = i
              · simp [hj]
              · simp only [if_neg hj]
                exact ih s s' hrel (.rep a 0 _) hr j g2 k k' hk)]
          cases mat s' f a i g _ with
          | none => exact hk i g
          | some res => rfl
        | some h =>
          cases h with
          | zero => exact hk i g
          | succ h' =>
            rw [ih s s' hrel a hr i g
              (fun j g2 => if j = i then none
                else mat s f (.rep a 0 (Option.map Nat.pred (some (h' + 1)))) j g2 k)
              (fun j g2 => if j = i then none
                else mat s' f (.rep a 0 (Option.map Nat.pred (some (h' + 1)))) j g2 k')
              (fun j g2 => by
                by_cases hj : j = i
                · simp [hj]
                · simp only [if_neg hj]
                  exact ih s s' hrel
                    (.rep a 0 (Option.map Nat.pred (some (h' + 1)))) hr j g2 k k' hk)]
            cases mat s' f a i g _ with
            | none => exact hk i g
            | some res => rfl
    | wb =>
      simp only [mat]
      rw [wordAt_caseVar s s' hrel i]
      have hprev : (if i = 0 then false else wordAt s (i - 1)) =
          (if i = 0 then false else wordAt s' (i - 1)) := by
        cases i with
        | zero => rfl
        | succ n => simp [wordAt_caseVar s s' hrel]
      rw [hprev]
      cases (if i = 0 then false else wordAt s' (i - 1)) != wordAt s' i with
      | false => rfl
      | true => simp only [if_pos rfl]; exact hk i g

/-- Two optional search results agree up to the subject text: same
success, same span, same capture spans. -/
def optSpanEq : Option MatchRes → Option MatchRes → Prop
  | none, none => True
  | some m, some m' => m.mstart = m'.mstart ∧ m.mstop = m'.mstop ∧ m.caps = m'.caps
  | _, _ => False

/-- Pointwise span-equal candidate functions yield span-equal first hits. -/
theorem findSome_spanEq (F G : Nat → Option MatchRes)
    (h : ∀ i, optSpanEq (F i) (G i)) :
    ∀ lst : List Nat, optSpanEq (lst.findSome? F) (lst.findSome? G) := by
  intro lst
  induction lst with
  | nil => exact trivial
  | cons a t ih =>
    simp only [List.findSome?]
    have ha := h a
    cases hFa : F a with
    | none =>
      cases hGa : G a with
      | none => exact ih
      | some m' => rw [hFa, hGa] at ha; exact absurd ha (by simp [optSpanEq])
    | some m =>
      cases hGa : G a with
      | none => rw [hFa, hGa] at ha; exact absurd ha (by simp [optSpanEq])
      | some m' => rw [hFa, hGa] at ha; exact ha

/-- Searching case-variant subjects with a case-closed regex gives
span-equal results. -/
theorem searchRE_spanEq (r : RE) (hr : REcase r) (u u' : String)
    (h : caseVariant u.toList u'.toList = true) :
    optSpanEq (searchRE r u) (searchRE r u') := by
  have hlen := caseVariant_length _ _ h
  have hrel := caseVariant_get? _ _ h
  have hfuel : fuelFor u.toList = fuelFor u'.toList := by
    simp only [fuelFor, hlen]
  show optSpanEq
    ((List.range (u.toList.length + 1)).findSome? (fun i =>
      (mat u.toList (fuelFor u.toList) r i [] (fun j g => some (j, g))).map
        (fun p => { src := u.toList, mstart := i, mstop := p.1, caps := p.2 })))
    ((List.range (u'.toList.length + 1)).findSome? (fun i =>
      (mat u'.toList (fuelFor u'.toList) r i [] (fun j g => some (j, g))).map
        (fun p => { src := u'.toList, mstart := i, mstop := p.1, caps := p.2 })))
  rw [hlen, hfuel]
  refine findSome_spanEq _ _ (fun i => ?_) _
  rw [mat_caseVar (fuelFor u'.toList) u.toList u'.toList hrel r hr i []
    (fun j g => some (j, g)) (fun j g => some (j, g)) (fun _ _ => rfl)]
  cases mat u'.toList (fuelFor u'.toList) r i [] (fun j g => some (j, g)) with
  | none => exact trivial
  | some p => exact ⟨rfl, rfl, rfl⟩

/-- Span-equal results succeed together. -/
theorem optSpanEq_isSome {o o' : Option MatchRes} (h : optSpanEq o o') :
    o.isSome = o'.isSome := by
  cases o <;> cases o' <;> simp [optSpanEq] at h ⊢


/-- Claim C3, counterexample: `"T.C. Memo 2012-1"` is accepted by the
alternate grammar, but doubling the single expected space between `"T.C."`
and `"Memo"` (a `\s` position, not a `\s{1,}` position) makes both grammars
fail, so `extract_from_text` returns the empty record instead of the same
fields — refuting "tolerant of one-or-more spaces anywhere a single space
is expected". -/
theorem claim_C3_counterexample :
    (searchRE tax_court_alt_regex "T.C. Memo 2012-1").isSome = true ∧
    searchRE tax_court_reports_regex "T.C.  Memo 2012-1" = none ∧
    searchRE tax_court_alt_regex "T.C.  Memo 2012-1" = none ∧
    extract_from_text "T.C.  Memo 2012-1" = emptyMeta ∧
    extract_from_text "T.C. Memo 2012-1" ≠ extract_from_text "T.C.  Memo 2012-1" := by
  refine ⟨by decide, by decide, by decide, by decide, by decide⟩

/-- Claim C3 as amended: whitespace widening (one or more spaces or tabs)
is accepted at the grammars' `\s{1,}` gap positions — exhibited for all
three citation forms — but not at single-space positions, where widening
defeats the match (counterexample); and for every pair of texts that are
case variants of one another (same length, characters equal or letters
with the same lowercase form), each grammar matches one iff it matches the
other, with identical match span and capture-group spans, although the
extracted fields may still differ because the branch tests on the matched
text are case-sensitive. -/
theorem claim_C3_amended :
    (∀ u u' : String, caseVariant u.toList u'.toList = true →
      ((searchRE tax_court_reports_regex u).isSome =
        (searchRE tax_court_reports_regex u').isSome) ∧
      ((searchRE tax_court_alt_regex u).isSome =
        (searchRE tax_court_alt_regex u').isSome) ∧
      (∀ m m', searchRE tax_court_reports_regex u = some m →
        searchRE tax_court_reports_regex u' = some m' →
        m.mstart = m'.mstart ∧ m.mstop = m'.mstop ∧ m.caps = m'.caps) ∧
      (∀ m m', searchRE tax_court_alt_regex u = some m →
        searchRE tax_court_alt_regex u' = some m' →
        m.mstart = m'.mstart ∧ m.mstop = m'.mstop ∧ m.caps = m'.caps)) ∧
    extract_from_text "138 \t United States Tax Court Report \t (1)" =
      { ctype := "SPECIALTY", volume := some "138", page := some "1",
        reporter := some "T.C.", precedential_status := "Published" } ∧
    extract_from_text "T.C. Memo \t 2012-1" =
      { ctype := "SPECIALTY", volume := some "2012", page := some "1",
        reporter := some "T.C. Memo.", precedential_status := "Unpublished" } ∧
    extract_from_text "45 \t T.C. No. \t 3" =
      { ctype := "SPECIALTY", volume := some "45", page := some "3",
        reporter := some "T.C.", precedential_status := "Published" } ∧
    extract_from_text "138 UNITED STATES tax court report (1)" =
      { ctype := "SPECIALTY", volume := some "138", page := some "1",
        reporter := some "T.C.", precedential_status := "Published" } ∧
    (searchRE tax_court_alt_regex "45 t.c. no. 3").isSome = true := by
  refine ⟨?_, by decide, by decide, by decide, by decide, by decide⟩
  intro u u' hcv
  have h1 := searchRE_spanEq _ REcase_primary u u' hcv
  have h2 := searchRE_spanEq _ REcase_alt u u' hcv
  exact ⟨optSpanEq_isSome h1, optSpanEq_isSome h2,
    fun m m' hm hm' => by rw [hm, hm'] at h1; exact h1,
    fun m m' hm hm' => by rw [hm, hm'] at h2; exact h2⟩

/-- Claim C3, witness: the case-invariance part applied to
`"45 T.C. No. 3"` and its lowercase variant. -/
theorem claim_C3_witness :
    ((searchRE tax_court_reports_regex "45 T.C. No. 3").isSome =
      (searchRE tax_court_reports_regex "45 t.c. no. 3").isSome) ∧
    ((searchRE tax_court_alt_regex "45 T.C. No. 3").isSome =
      (searchRE tax_court_alt_regex "45 t.c. no. 3").isSome) :=
  ⟨(claim_C3_amended.1 "45 T.C. No. 3" "45 t.c. no. 3" (by decide)).1,
   (claim_C3_amended.1 "45 T.C. No. 3" "45 t.c. no. 3" (by decide)).2.1⟩

/-- Claim C4: when neither grammar matches, no error is raised and the
result record has no citation fields set and an empty status string. -/
theorem claim_C4 (s : String)
    (h1 : searchRE tax_court_reports_regex s = none)
    (h2 : searchRE tax_court_alt_regex s = none) :
    extract_from_text s = emptyMeta ∧
    (extract_from_text s).volume = none ∧
    (extract_from_text s).page = none ∧
    (extract_from_text s).reporter = none ∧
    (extract_from_text s).precedential_status = "" := by
  have h : extract_from_text s = emptyMeta := by
    simp [extract_from_text, h1, h2]
  exact ⟨h, by rw [h]; rfl, by rw [h]; rfl, by rw [h]; rfl, by rw [h]; rfl⟩

/-- Claim C4, witness: a text matching neither grammar. -/
theorem claim_C4_witness :
    extract_from_text "no citation in this opinion" = emptyMeta ∧
    (extract_from_text "no citation in this opinion").volume = none ∧
    (extract_from_text "no citation in this opinion").page = none ∧
    (extract_from_text "no citation in this opinion").reporter = none ∧
    (extract_from_text "no citation in this opinion").precedential_status = "" :=
  claim_C4 "no citation in this opinion" (by decide) (by decide)

/-- Claim C10 (implicit): the alternate regex matches case-insensitively
but the branch tests on the matched text are case-sensitive, so
`"t.c. memo 2012-1"` takes the Memorandum/Summary branch with reporter
unset and status `"Unpublished"`, and the lowercase numbered form
`"45 t.c. no. 3"` also takes that branch, reading the unmatched capture
groups 6 and 7 (both `None`). -/
theorem claim_C10 :
    (searchRE tax_court_alt_regex "t.c. memo 2012-1").isSome = true ∧
    extract_from_text "t.c. memo 2012-1" =
      { ctype := "SPECIALTY", volume := some "2012", page := some "1",
        reporter := none, precedential_status := "Unpublished" } ∧
    (searchRE tax_court_alt_regex "45 t.c. no. 3").isSome = true ∧
    extract_from_text "45 t.c. no. 3" =
      { ctype := "SPECIALTY", volume := none, page := none,
        reporter := none, precedential_status := "Unpublished" } := by
  refine ⟨by decide, by decide, by decide, by decide⟩

/-! ## Claim about `_get_precedential_statuses` -/

/-- Claim C5: a row's status is computed from the second column's text,
lower-cased (after stripping), by ordered substring containment —
`"Published"` if it contains `"opinion"`, else `"Unpublished"` if it
contains `"memorandum"` or `"summary"`, else `"Unknown"` — and the `"opinion"`
test comes first, so a label containing both `"opinion"` and `"memorandum"`
classifies as `"Published"`. -/
theorem claim_C5 :
    (∀ s, pyIn "opinion" (pyLower (pyStrip s)) = true →
      classifyStatus s = "Published") ∧
    (∀ s, pyIn "opinion" (pyLower (pyStrip s)) = false →
      pyIn "memorandum" (pyLower (pyStrip s)) = true →
      classifyStatus s = "Unpublished") ∧
    (∀ s, pyIn "opinion" (pyLower (pyStrip s)) = false →
      pyIn "memorandum" (pyLower (pyStrip s)) = false →
      pyIn "summary" (pyLower (pyStrip s)) = true →
      classifyStatus s = "Unpublished") ∧
    (∀ s, pyIn "opinion" (pyLower (pyStrip s)) = false →
      pyIn "memorandum" (pyLower (pyStrip s)) = false →
      pyIn "summary" (pyLower (pyStrip s)) = false →
      classifyStatus s = "Unknown") ∧
    classifyStatus "Memorandum Opinion" = "Published" ∧
    (∀ doc : List Row,
      get_precedential_statuses doc = (collect (cellAt 2) doc).map classifyStatus) := by
  refine ⟨?_, ?_, ?_, ?_, by decide, fun _ => rfl⟩
  · intro s h; simp [classifyStatus, h]
  · intro s h1 h2; simp [classifyStatus, h1, h2]
  · intro s h1 h2 h3; simp [classifyStatus, h1, h2, h3]
  · intro s h1 h2 h3; simp [classifyStatus, h1, h2, h3]

/-- Claim C5, witness: each classification branch applied to a concrete
second-column label. -/
theorem claim_C5_witness :
    classifyStatus " T.C. Opinion " = "Published" ∧
    classifyStatus "Memorandum Decision" = "Unpublished" ∧
    classifyStatus "Summary" = "Unpublished" ∧
    classifyStatus "Order" = "Unknown" :=
  ⟨claim_C5.1 " T.C. Opinion " (by decide),
   claim_C5.2.1 "Memorandum Decision" (by decide) (by decide),
   claim_C5.2.2.1 "Summary" (by decide) (by decide) (by decide),
   claim_C5.2.2.2.1 "Order" (by decide) (by decide) (by decide)⟩

/-! ## Claim about the backscrape window -/

/-- Executable check that consecutive elements step by exactly 7. -/
def stepBy7 : List Nat → Bool
  | [] => true
  | [_] => true
  | a :: b :: t => decide (b = a + 7) && stepBy7 (b :: t)

/-- The Bool checker `stepBy7` certifies the 7-day-cadence chain. -/
theorem stepBy7_chain : ∀ l : List Nat, stepBy7 l = true →
    List.Chain' (fun a b => b = a + 7) l
  | [] => fun _ => List.chain'_nil
  | [_] => fun _ => List.chain'_singleton _
  | a :: b :: t => fun h => by
      have h' := h
      simp only [stepBy7, Bool.and_eq_true, decide_eq_true_eq] at h'
      exact List.chain'_cons.mpr ⟨h'.1, stepBy7_chain (b :: t) h'.2⟩

/-- Executable bounds check over the whole iterable. -/
def allInWindow (lo hi : Nat) (l : List Nat) : Bool :=
  l.all (fun x => decide (lo ≤ x) && decide (x ≤ hi))

/-- The Bool checker `allInWindow` certifies membership bounds. -/
theorem allInWindow_forall (lo hi : Nat) (l : List Nat)
    (h : allInWindow lo hi l = true) : ∀ x ∈ l, lo ≤ x ∧ x ≤ hi := by
  intro x hx
  have := List.all_eq_true.mp h x hx
  simpa using this

set_option maxRecDepth 100000 in
/-- Claim C8: the historical window (weekly from 1995-09-25 through
2018-11-13 inclusive) produces exactly `(end - start) / 7 + 1` anchor
dates, strictly increasing at a 7-day cadence, starting at the window's
start date; every date lies inside the window and the next weekly step
after the last one would pass the end bound. -/
theorem claim_C8 :
    back_scrape_iterable.length = (untilDay - startDay) / 7 + 1 ∧
    back_scrape_iterable.head? = some startDay ∧
    List.Chain' (fun a b => b = a + 7) back_scrape_iterable ∧
    List.Chain' (fun a b => a < b) back_scrape_iterable ∧
    (∀ x ∈ back_scrape_iterable, startDay ≤ x ∧ x ≤ untilDay) ∧
    back_scrape_iterable.getLast?.all (fun l => untilDay < l + 7) = true := by
  have hc : List.Chain' (fun a b => b = a + 7) back_scrape_iterable :=
    stepBy7_chain back_scrape_iterable (by decide)
  refine ⟨by decide, by decide, hc, ?_, ?_, by decide⟩
  · exact hc.imp (fun a b h => by omega)
  · exact allInWindow_forall startDay untilDay back_scrape_iterable (by decide)

/-! ## Claim about `_download_backwards` idempotence -/

/-- Claim C9: after `_download_backwards` succeeds for an anchor date (a
document was fetched), the completion status `200` is recorded, and the
framework's fetch entry point invoked a second time on that state performs
no fetch and leaves the state unchanged. -/
theorem claim_C9 (fetch fetch2 : Nat → Nat → Option (List Row))
    (st : TaxSiteState) (d : Nat) (doc : List Row)
    (h : (download_backwards fetch st d).html = some doc) :
    (download_backwards fetch st d).status = some 200 ∧
    parseStep fetch2 (download_backwards fetch st d) =
      (download_backwards fetch st d, false) := by
  unfold download_backwards at h ⊢
  cases hf : fetch (d - 7) d with
  | none => simp [hf] at h
  | some v => simp [hf, parseStep]

/-- Claim C9, witness: a concrete successful backscrape step followed by a
second invocation of the fetch entry point. -/
theorem claim_C9_witness :
    (download_backwards (fun _ _ => some []) ⟨14, 0, none, none⟩ 700).status = some 200 ∧
    parseStep (fun _ _ => some [⟨["x"], ["y"]⟩])
      (download_backwards (fun _ _ => some []) ⟨14, 0, none, none⟩ 700) =
      (download_backwards (fun _ _ => some []) ⟨14, 0, none, none⟩ 700, false) :=
  claim_C9 (fun _ _ => some []) (fun _ _ => some [⟨["x"], ["y"]⟩])
    ⟨14, 0, none, none⟩ 700 [] (by decide)


/-! ## Claim about the aligned row getters -/

/-- Selecting one element of a list long enough yields exactly that
element. -/
theorem drop_take_one (l : List String) : ∀ n : Nat, n < l.length →
    (l.drop n).take 1 = [l.getD n ""] := by
  induction l with
  | nil => intro n h; simp at h
  | cons c t ih =>
    intro n h
    cases n with
    | zero => rfl
    | succ m => exact ih m (by simpa using h)

/-- On rows with at least `k` cells, column `k`'s selection is one cell per
row, in row order. -/
theorem collect_cellAt (k : Nat) (doc : List Row)
    (h : ∀ r ∈ doc, k - 1 < r.cells.length) :
    collect (cellAt k) doc = doc.map (fun r => r.cells.getD (k - 1) "") := by
  induction doc with
  | nil => rfl
  | cons r t ih =>
    have h1 := h r (List.mem_cons_self r t)
    have hcell : cellAt k r = [r.cells.getD (k - 1) ""] :=
      drop_take_one r.cells (k - 1) h1
    simp only [collect, hcell, List.map_cons,
      ih (fun x hx => h x (List.mem_cons_of_mem r hx))]
    rfl

/-- On rows with exactly one anchor, the href selection is one href per
row, in row order. -/
theorem collect_hrefs (doc : List Row)
    (h : ∀ r ∈ doc, r.hrefs.length = 1) :
    collect Row.hrefs doc = doc.map (fun r => r.hrefs.getD 0 "") := by
  induction doc with
  | nil => rfl
  | cons r t ih =>
    obtain ⟨u, hu⟩ := List.length_eq_one.mp (h r (List.mem_cons_self r t))
    simp only [collect, List.map_cons,
      ih (fun x hx => h x (List.mem_cons_of_mem r hx)), hu]
    rfl

/-- When every third-column text parses, the date loop returns one date per
input, aligned. -/
theorem datesParse_aligned : ∀ ts : List String,
    (∀ x ∈ ts, (strptimeMDY (pyStrip x)).isSome = true) →
    ∃ ds, datesParse ts = some ds ∧ ds.length = ts.length ∧
      ∀ i : Nat, ds.get? i = (ts.get? i).bind (fun x => strptimeMDY (pyStrip x)) := by
  intro ts
  induction ts with
  | nil => exact fun _ => ⟨[], rfl, rfl, fun i => by cases i <;> rfl⟩
  | cons x t ih =>
    intro h
    obtain ⟨d, hd⟩ := Option.isSome_iff_exists.mp (h x (List.mem_cons_self x t))
    obtain ⟨ds, hds, hlen, hal⟩ := ih (fun y hy => h y (List.mem_cons_of_mem x hy))
    refine ⟨d :: ds, ?_, by simpa using hlen, ?_⟩
    · simp only [datesParse, hd, hds]
    · intro i
      cases i with
      | zero => simpa using hd.symm
      | succ n => simpa using hal n

/-- Claim C7: on a document whose rows are well formed — three columns, one
anchor, and a third column matching the row contract's `MM/DD/YYYY` date
format — the four field getters return sequences of one entry per row,
positionally aligned with the rows. -/
theorem claim_C7 (doc : List Row)
    (hw : ∀ r ∈ doc, r.cells.length = 3 ∧ r.hrefs.length = 1 ∧
      (strptimeMDY (pyStrip (r.cells.getD 2 ""))).isSome = true) :
    get_case_names doc =
      doc.map (fun r => pyStrip (r.cells.getD 0 "") ++ " v. Commissioner") ∧
    get_precedential_statuses doc =
      doc.map (fun r => classifyStatus (r.cells.getD 1 "")) ∧
    get_download_urls doc =
      doc.map (fun r => rewriteHref (r.hrefs.getD 0 "")) ∧
    (∃ ds, get_case_dates doc = some ds ∧ ds.length = doc.length ∧
      ∀ i : Nat, ds.get? i =
        (doc.get? i).bind (fun r => strptimeMDY (pyStrip (r.cells.getD 2 "")))) := by
  have hc1 : collect (cellAt 1) doc = doc.map (fun r => r.cells.getD 0 "") :=
    collect_cellAt 1 doc (fun r hr => by have := (hw r hr).1; omega)
  have hc2 : collect (cellAt 2) doc = doc.map (fun r => r.cells.getD 1 "") :=
    collect_cellAt 2 doc (fun r hr => by have := (hw r hr).1; omega)
  have hc3 : collect (cellAt 3) doc = doc.map (fun r => r.cells.getD 2 "") :=
    collect_cellAt 3 doc (fun r hr => by have := (hw r hr).1; omega)
  have hh : collect Row.hrefs doc = doc.map (fun r => r.hrefs.getD 0 "") :=
    collect_hrefs doc (fun r hr => (hw r hr).2.1)
  refine ⟨?_, ?_, ?_, ?_⟩
  · rw [get_case_names, hc1, List.map_map]; rfl
  · rw [get_precedential_statuses, hc2, List.map_map]; rfl
  · rw [get_download_urls, hh, List.map_map]; rfl
  · obtain ⟨ds, hds, hlen, hal⟩ :=
      datesParse_aligned (doc.map (fun r => r.cells.getD 2 ""))
        (fun x hx => by
          obtain ⟨r, hr, rfl⟩ := List.mem_map.mp hx
          exact (hw r hr).2.2)
    refine ⟨ds, ?_, by simpa using hlen, ?_⟩
    · rw [get_case_dates, hc3]; exact hds
    · intro i
      rw [hal i, List.get?_map]
      cases doc.get? i <;> rfl

/-- A one-row well-formed result table used to instantiate claim C7. -/
def demoDoc : List Row :=
  [{ cells := ["Smith ", "Memorandum Opinion", "11/13/2018"],
     hrefs := ["https://www.ustaxcourt.gov/UstcInOp/OpinionSearch.aspx#11813"] }]

/-- Claim C7, witness: the getters applied to `demoDoc`. -/
theorem claim_C7_witness :
    (∀ r ∈ demoDoc, r.cells.length = 3 ∧ r.hrefs.length = 1 ∧
      (strptimeMDY (pyStrip (r.cells.getD 2 ""))).isSome = true) ∧
    (get_case_names demoDoc =
      demoDoc.map (fun r => pyStrip (r.cells.getD 0 "") ++ " v. Commissioner") ∧
     get_precedential_statuses demoDoc =
      demoDoc.map (fun r => classifyStatus (r.cells.getD 1 "")) ∧
     get_download_urls demoDoc =
      demoDoc.map (fun r => rewriteHref (r.hrefs.getD 0 "")) ∧
     (∃ ds, get_case_dates demoDoc = some ds ∧ ds.length = demoDoc.length ∧
       ∀ i : Nat, ds.get? i =
         (demoDoc.get? i).bind (fun r => strptimeMDY (pyStrip (r.cells.getD 2 ""))))) :=
  ⟨by decide, claim_C7 demoDoc (by decide)⟩

/-! ## Claim about the download-URL rewrite -/

/-- Prefix testing only inspects as many characters as the pattern has. -/
theorem isPrefixOf_append_of_le : ∀ (p a b : List Char),
    p.length ≤ a.length → List.isPrefixOf p (a ++ b) = List.isPrefixOf p a := by
  intro p
  induction p with
  | nil => intro a b _; simp [List.isPrefixOf]
  | cons x p' ih =>
    intro a b h
    cases a with
    | nil => simp at h
    | cons y a' =>
      simp only [List.cons_append, List.isPrefixOf, List.append_eq]
      rw [ih a' b (by simpa using h)]

/-- A list is a prefix of itself followed by anything. -/
theorem isPrefixOf_append_self : ∀ (p b : List Char),
    List.isPrefixOf p (p ++ b) = true := by
  intro p
  induction p with
  | nil => intro b; simp [List.isPrefixOf]
  | cons x p' ih => intro b; simp [List.isPrefixOf, ih]

/-- Dropping an appended list's length recovers the suffix. -/
theorem drop_length_append : ∀ (p b : List Char),
    List.drop p.length (p ++ b) = b := by
  intro p
  induction p with
  | nil => intro b; rfl
  | cons x p' ih => intro b; simpa using ih b

/-- The replace scan step on a non-empty list. -/
theorem replaceCore_cons (pat rep : List Char) (f : Nat) (c : Char) (t : List Char) :
    replaceCore pat rep (f + 1) (c :: t) =
      if pat.isPrefixOf (c :: t) then
        rep ++ replaceCore pat rep f (List.drop pat.length (c :: t))
      else c :: replaceCore pat rep f t := rfl

/-- The replace scan leaves the empty list unchanged. -/
theorem replaceCore_nil (pat rep : List Char) : ∀ f : Nat,
    replaceCore pat rep f [] = [] := by
  intro f; cases f <;> rfl

/-- A pattern starting with a non-digit never fires inside an all-digit
list, so the replace scan leaves it unchanged. -/
theorem replaceCore_digits (c0 : Char) (pt rep : List Char)
    (hc0 : c0.isDigit = false) : ∀ (f : Nat) (n : List Char),
    n.length ≤ f → (∀ c ∈ n, c.isDigit = true) →
    replaceCore (c0 :: pt) rep f n = n := by
  intro f
  induction f with
  | zero =>
    intro n hlen _
    cases n with
    | nil => rfl
    | cons c t => simp at hlen
  | succ f ih =>
    intro n hlen hd
    cases n with
    | nil => rfl
    | cons c t =>
      have hcd : c.isDigit = true := hd c (List.mem_cons_self c t)
      have hne : (c0 == c) = false := by
        rw [beq_eq_false_iff_ne]
        intro h
        rw [h] at hc0
        rw [hcd] at hc0
        exact absurd hc0 (by decide)
      rw [replaceCore_cons]
      have hp : List.isPrefixOf (c0 :: pt) (c :: t) = false := by
        simp [List.isPrefixOf, hne]
      rw [hp]
      simp only [if_neg Bool.false_ne_true]
      rw [ih t (by simpa using hlen) (fun x hx => hd x (List.mem_cons_of_mem c hx))]

/-- The replace scan walks over a region in which the pattern never fires,
copying it verbatim. -/
theorem replaceCore_skip (pat rep : List Char) : ∀ (P : List Char) (f : Nat)
    (l : List Char),
    (∀ i, i < P.length → List.isPrefixOf pat (P.drop i ++ l) = false) →
    replaceCore pat rep (P.length + f) (P ++ l) = P ++ replaceCore pat rep f l := by
  intro P
  induction P with
  | nil => intro f l _; simp
  | cons c P' ih =>
    intro f l hmiss
    have e : (c :: P').length + f = (P'.length + f) + 1 := by
      simp [List.length_cons]; omega
    rw [e, List.cons_append, replaceCore_cons]
    have h0 : List.isPrefixOf pat (c :: (P' ++ l)) = false := by
      have := hmiss 0 (by simp)
      simpa using this
    rw [h0]
    simp only [if_neg Bool.false_ne_true]
    rw [ih f l (fun i hi => by
      have := hmiss (i + 1) (by simpa using Nat.succ_lt_succ hi)
      simpa using this)]
    rfl

/-- A pattern starting with `?` never occurs in a list without `?`. -/
theorem isSubList_no_qmark (pt : List Char) : ∀ l : List Char,
    (∀ c ∈ l, ¬ c = '?') → isSubList ('?' :: pt) l = false := by
  intro l
  induction l with
  | nil => intro _; rfl
  | cons c t ih =>
    intro h
    have hne : ('?' == c) = false := by
      rw [beq_eq_false_iff_ne]
      intro he
      exact h c (List.mem_cons_self c t) he.symm
    simp only [isSubList, List.isPrefixOf, hne, Bool.false_and, Bool.false_or]
    exact ih (fun x hx => h x (List.mem_cons_of_mem c hx))

/-- A digit is not a question mark. -/
theorem digit_ne_qmark (c : Char) (h : c.isDigit = true) : ¬ c = '?' := by
  intro he
  rw [he] at h
  exact absurd h (by decide)

/-- Claim C6: the download URL is the href unchanged when it contains
`"?ID"`, and otherwise the href with `"OpinionSearch.aspx#"` replaced by
`"OpinionViewer.aspx?ID="`, the numeric id preserved verbatim; the getter
emits exactly one URL per collected href, in order. -/
theorem claim_C6 :
    (∀ doc : List Row,
      (get_download_urls doc).length = (collect Row.hrefs doc).length ∧
      ∀ i : Nat, (get_download_urls doc).get? i =
        ((collect Row.hrefs doc).get? i).map rewriteHref) ∧
    (∀ href : String, pyIn "?ID" href = true → rewriteHref href = href) ∧
    (∀ n : List Char, (∀ c ∈ n, c.isDigit = true) →
      rewriteHref (String.mk
        ("https://www.ustaxcourt.gov/UstcInOp/OpinionSearch.aspx#".toList ++ n)) =
      String.mk
        ("https://www.ustaxcourt.gov/UstcInOp/OpinionViewer.aspx?ID=".toList ++ n)) ∧
    rewriteHref "https://www.ustaxcourt.gov/UstcInOp/OpinionSearch.aspx#11813" =
      "https://www.ustaxcourt.gov/UstcInOp/OpinionViewer.aspx?ID=11813" ∧
    rewriteHref "https://www.ustaxcourt.gov/UstcInOp/OpinionViewer.aspx?ID=11815" =
      "https://www.ustaxcourt.gov/UstcInOp/OpinionViewer.aspx?ID=11815" := by
  refine ⟨?_, ?_, ?_, by decide, by decide⟩
  · intro doc
    exact ⟨by simp [get_download_urls], fun i => by
      simp [get_download_urls, List.get?_map]⟩
  · intro href h
    simp [rewriteHref, h]
  · intro n hn
    have hq : pyIn "?ID" (String.mk
        ("https://www.ustaxcourt.gov/UstcInOp/OpinionSearch.aspx#".toList ++ n)) = false := by
      show isSubList ('?' :: "ID".toList)
        ("https://www.ustaxcourt.gov/UstcInOp/OpinionSearch.aspx#".toList ++ n) = false
      refine isSubList_no_qmark "ID".toList _ (fun c hc => ?_)
      rcases List.mem_append.mp hc with h | h
      · revert h
        exact (by decide :
          ∀ c ∈ "https://www.ustaxcourt.gov/UstcInOp/OpinionSearch.aspx#".toList,
            ¬ c = '?') c
      · exact digit_ne_qmark c (hn c h)
    rw [rewriteHref, if_neg (by rw [hq]; exact Bool.false_ne_true)]
    show String.mk (pyReplace
      ("https://www.ustaxcourt.gov/UstcInOp/OpinionSearch.aspx#".toList ++ n)
      "OpinionSearch.aspx#".toList "OpinionViewer.aspx?ID=".toList) = _
    have hsplit : "https://www.ustaxcourt.gov/UstcInOp/OpinionSearch.aspx#".toList =
        "https://www.ustaxcourt.gov/UstcInOp/".toList ++ "OpinionSearch.aspx#".toList := by
      decide
    rw [hsplit, List.append_assoc, pyReplace]
    have hlen : ("https://www.ustaxcourt.gov/UstcInOp/".toList ++
        ("OpinionSearch.aspx#".toList ++ n)).length =
        ("https://www.ustaxcourt.gov/UstcInOp/".toList).length +
          (19 + n.length) := by
      simp [List.length_append]
      omega
    rw [hlen, replaceCore_skip _ _ _ _ _ (fun i hi => by
      rw [← List.append_assoc]
      rw [isPrefixOf_append_of_le _ _ _ (by
        simp only [List.length_append, List.length_drop]
        omega)]
      revert hi
      revert i
      exact (by decide : ∀ i, i < ("https://www.ustaxcourt.gov/UstcInOp/".toList).length →
        List.isPrefixOf "OpinionSearch.aspx#".toList
          (("https://www.ustaxcourt.gov/UstcInOp/".toList).drop i ++
            "OpinionSearch.aspx#".toList) = false))]
    have e19 : (19 : Nat) + n.length = (18 + n.length) + 1 := by omega
    have hcons : "OpinionSearch.aspx#".toList ++ n =
        'O' :: ("pinionSearch.aspx#".toList ++ n) := rfl
    rw [e19, hcons, replaceCore_cons, ← hcons,
      if_pos (isPrefixOf_append_self "OpinionSearch.aspx#".toList n)]
    have hdrop : List.drop ("OpinionSearch.aspx#".toList).length
        ("OpinionSearch.aspx#".toList ++ n) = n := drop_length_append _ n
    rw [hdrop]
    rw [show "OpinionSearch.aspx#".toList =
      'O' :: "pinionSearch.aspx#".toList from rfl]
    rw [replaceCore_digits 'O' "pinionSearch.aspx#".toList _ (by decide)
      (18 + n.length) n (by omega) hn]
    show String.mk ("https://www.ustaxcourt.gov/UstcInOp/".toList ++
      ("OpinionViewer.aspx?ID=".toList ++ n)) = _
    rw [← List.append_assoc]
    rw [(by decide : "https://www.ustaxcourt.gov/UstcInOp/".toList ++
      "OpinionViewer.aspx?ID=".toList =
      "https://www.ustaxcourt.gov/UstcInOp/OpinionViewer.aspx?ID=".toList)]

/-- Claim C6, witness: the pass-through branch and the verbatim-id rewrite
at concrete inputs. -/
theorem claim_C6_witness :
    rewriteHref "https://x/OpinionViewer.aspx?ID=999" =
      "https://x/OpinionViewer.aspx?ID=999" ∧
    rewriteHref (String.mk
      ("https://www.ustaxcourt.gov/UstcInOp/OpinionSearch.aspx#".toList ++
        "90210".toList)) =
    String.mk
      ("https://www.ustaxcourt.gov/UstcInOp/OpinionViewer.aspx?ID=".toList ++
        "90210".toList) :=
  ⟨claim_C6.2.1 "https://x/OpinionViewer.aspx?ID=999" (by decide),
   claim_C6.2.2.1 "90210".toList (by decide)⟩
